import Mathlib

/-!
Shallow embedding of the slack-dev-bot activity-aggregation and two-stage
summarization pipeline.

The embedded code comes from `git-summary.js` (data collection, deduplication,
window filtering, rendering, the two-stage LLM pipeline in `main`) and from
`linear-utils.js` (`fetchLinearActivity` post-processing, `mapName`).

Strings are modelled with Lean `String`; the handful of string operations the
source uses (`toLowerCase`, `includes`, lexicographic `>=`, `split('/')`)
are given as structurally recursive functions over `String.data` so that all
definitions evaluate inside the kernel.  JavaScript string comparison is
code-unit lexicographic; here it is code-point lexicographic, which agrees on
the ASCII ISO-8601 timestamps the code compares.
-/

/-- Bool test for `needle` being a prefix of the char list. -/
def isPrefixL : List Char → List Char → Bool
  | [], _ => true
  | _ :: _, [] => false
  | a :: as, b :: bs => a == b && isPrefixL as bs

/-- Bool test for `needle` occurring contiguously inside `hay`. -/
def isInfixL (needle hay : List Char) : Bool :=
  match hay with
  | [] => isPrefixL needle []
  | _ :: t => isPrefixL needle hay || isInfixL needle t

/-- Model of JavaScript `String.prototype.toLowerCase`. -/
def lowerStr (s : String) : String := ⟨s.data.map Char.toLower⟩

/-- Model of JavaScript `hay.includes(needle)`. -/
def strContains (hay needle : String) : Bool := isInfixL needle.data hay.data

/-- Lexicographic comparison of char lists. -/
def leChars : List Char → List Char → Bool
  | [], _ => true
  | _ :: _, [] => false
  | a :: as, b :: bs => if a = b then leChars as bs else decide (a < b)

/-- Model of JavaScript `a <= b` on strings (lexicographic order). -/
def strLe (a b : String) : Bool := leChars a.data b.data

/-- Split a char list at every `'/'` (model of `split('/')`). -/
def splitSlash : List Char → List (List Char)
  | [] => [[]]
  | c :: rest =>
    let r := splitSlash rest
    if c = '/' then [] :: r
    else
      match r with
      | [] => [[c]]
      | h :: t => (c :: h) :: t

/-- Model of `fullRepo.split('/').pop()` — the short repository name. -/
def repoShortName (s : String) : String := ⟨(splitSlash s.data).getLastD s.data⟩

/-- Model of JavaScript truthiness of a string value (`""` is falsy). -/
def jsTruthy (s : String) : Bool := s != ""

/- ## Commit collection (git-summary.js, `collectGitData`, step 1) -/

/-- One raw commit record as parsed from a `gh api .../commits` TSV line:
content hash, author login (or fallback name), first line of the message. -/
structure RawCommit where
  sha : String
  author : String
  message : String
deriving DecidableEq, Repr

/-- The commit listing obtained for one branch of one repository. -/
structure BranchListing where
  branch : String
  commits : List RawCommit
deriving DecidableEq, Repr

/-- The branch listings obtained for one repository (`fullRepo` is `org/name`). -/
structure RepoListing where
  fullRepo : String
  branches : List BranchListing
deriving DecidableEq, Repr

/-- A commit record as pushed onto `data.commits`.  The source stores the hash
only inside `url`; the embedding additionally keeps the hash itself as the
field `sha` to speak about deduplication. -/
structure CommitRec where
  repo : String
  fullRepo : String
  author : String
  branch : String
  message : String
  sha : String
  url : String
deriving DecidableEq, Repr

/-- Build the stored commit record exactly as `data.commits.push({...})` does. -/
def mkCommitRec (fullRepo branch : String) (c : RawCommit) : CommitRec :=
  { repo := repoShortName fullRepo
    fullRepo := fullRepo
    author := c.author
    branch := branch
    message := c.message
    sha := c.sha
    url := "https://github.com/" ++ fullRepo ++ "/commit/" ++ c.sha }

/-- The raw commit stream in scan order: repositories in listing order, inside
each repository its branches in listing order, inside each branch its commits
in listing order.  This is the traversal order of the nested `for` loops. -/
def rawStream (repos : List RepoListing) : List (String × String × RawCommit) :=
  repos.flatMap fun r => r.branches.flatMap fun b => b.commits.map fun c => (r.fullRepo, b.branch, c)

/-- Fold of the commit loop body over the scan stream, carrying the mutable
`seenSHAs` set: a record with an empty hash or an already-seen hash is
skipped (`continue`), otherwise it is pushed and its hash remembered. -/
def collectCommitsAux : List (String × String × RawCommit) → List String → List CommitRec
  | [], _ => []
  | (fr, br, c) :: rest, seen =>
    if c.sha = "" ∨ c.sha ∈ seen then collectCommitsAux rest seen
    else mkCommitRec fr br c :: collectCommitsAux rest (c.sha :: seen)

/-- The `data.commits` list produced by scanning all repositories, with the
single run-wide `seenSHAs` set starting empty. -/
def collectCommits (repos : List RepoListing) : List CommitRec :=
  collectCommitsAux (rawStream repos) []

/- ## Comment deduplication (git-summary.js, lines 239–246) -/

/-- A comment record as pushed onto `data.comments` from either the issue
comments listing or the PR review comments listing (`isReviewComment` is set
only by the latter). -/
structure CommentRec where
  repo : String
  author : String
  issueNumber : String
  body : String
  createdAt : String
  isReviewComment : Bool
deriving DecidableEq, Repr

/-- The deduplication key template string for a comment. -/
def commentKey (c : CommentRec) : String :=
  c.repo ++ ":" ++ c.author ++ ":" ++ c.issueNumber ++ ":" ++ c.createdAt

/-- Fold of the `data.comments.filter(...)` pass, carrying the `commentKeys`
set: keeps a comment iff its key has not been seen yet. -/
def dedupCommentsAux : List CommentRec → List String → List CommentRec
  | [], _ => []
  | c :: rest, seen =>
    if commentKey c ∈ seen then dedupCommentsAux rest seen
    else c :: dedupCommentsAux rest (commentKey c :: seen)

/-- The deduplicated `data.comments` list. -/
def dedupComments (cs : List CommentRec) : List CommentRec :=
  dedupCommentsAux cs []

/- ## Pull-request window test (git-summary.js, lines 102–123) -/

/-- A raw PR record as returned by `gh pr list --json`.  The fields requested
by the source are number, title, author, state, createdAt, mergedAt, closedAt
and reviews; `mergedAt`/`closedAt` are `null` for PRs that were not
merged/closed.  The API object also carries an `updatedAt` timestamp, which
the source deliberately does not request; the embedding keeps the field to
express that the inclusion test never consults it. -/
structure PRRaw where
  number : Nat
  title : String
  author : Option String
  state : String
  createdAt : String
  mergedAt : Option String
  closedAt : Option String
  updatedAt : String
deriving DecidableEq, Repr

/-- JavaScript truthiness of an optional string (`null` and `""` are falsy). -/
def optTruthy : Option String → Bool
  | none => false
  | some s => s != ""

/-- The inclusion test
`pr.createdAt >= since || (pr.mergedAt && pr.mergedAt >= since) || (pr.closedAt && pr.closedAt >= since)`. -/
def prInWindow (since : String) (pr : PRRaw) : Bool :=
  strLe since pr.createdAt
    || (optTruthy pr.mergedAt && strLe since (pr.mergedAt.getD ""))
    || (optTruthy pr.closedAt && strLe since (pr.closedAt.getD ""))

/-- A PR record as pushed onto `data.prs`. -/
structure PRStored where
  repo : String
  fullRepo : String
  number : Nat
  title : String
  author : String
  state : String
  createdAt : String
  mergedAt : String
  closedAt : String
  url : String
deriving DecidableEq, Repr

/-- Model of `o?.slice(0, 10) || ''` on an optional timestamp. -/
def optSlice10 (o : Option String) : String := (o.getD "").take 10

/-- Model of `pr.author?.login || 'unknown'`. -/
def optAuthor : Option String → String
  | none => "unknown"
  | some s => if s = "" then "unknown" else s

/-- Build the stored PR record exactly as `data.prs.push({...})` does. -/
def mkPRStored (fullRepo : String) (pr : PRRaw) : PRStored :=
  { repo := repoShortName fullRepo
    fullRepo := fullRepo
    number := pr.number
    title := pr.title
    author := optAuthor pr.author
    state := pr.state
    createdAt := pr.createdAt.take 10
    mergedAt := optSlice10 pr.mergedAt
    closedAt := optSlice10 pr.closedAt
    url := "https://github.com/" ++ fullRepo ++ "/pull/" ++ toString pr.number }

/-- The PR loop for one repository: keep exactly the PRs passing `prInWindow`
(`if (!inWindow) continue;`) and push their stored records. -/
def collectPRs (fullRepo since : String) (prs : List PRRaw) : List PRStored :=
  (prs.filter (prInWindow since)).map (mkPRStored fullRepo)

/- ## Remaining event records and the collected data set -/

/-- A review record as pushed onto `data.reviews`. -/
structure ReviewRec where
  repo : String
  prNumber : Nat
  prTitle : String
  reviewer : String
  state : String
deriving DecidableEq, Repr

/-- An issue record as pushed onto `data.issues`. -/
structure IssueRec where
  repo : String
  number : Nat
  title : String
  author : String
  state : String
  createdAt : String
  url : String
deriving DecidableEq, Repr

/-- A release record as pushed onto `data.releases`. -/
structure ReleaseRec where
  repo : String
  tag : String
  name : String
  author : String
  publishedAt : String
  url : String
deriving DecidableEq, Repr

/-- A branch create/delete event as pushed onto `data.branchEvents`. -/
structure BranchEventRec where
  repo : String
  author : String
  action : String
  branch : String
deriving DecidableEq, Repr

/-- A membership change as pushed onto `data.memberEvents`. -/
structure MemberEventRec where
  repo : String
  member : String
  action : String
  actor : String
deriving DecidableEq, Repr

/-- The aggregated `data` object built by `collectGitData`: one ordered list
per event kind. -/
structure ActivityData where
  commits : List CommitRec
  prs : List PRStored
  reviews : List ReviewRec
  comments : List CommentRec
  issues : List IssueRec
  releases : List ReleaseRec
  branchEvents : List BranchEventRec
  memberEvents : List MemberEventRec
deriving DecidableEq, Repr

/-- The total-activity count summed in `main` over all eight event kinds. -/
def totalActivity (d : ActivityData) : Nat :=
  d.commits.length + d.prs.length + d.reviews.length + d.comments.length
    + d.issues.length + d.releases.length + d.branchEvents.length + d.memberEvents.length

/- ## Rendering (git-summary.js, `formatRawData`) -/

/-- The author lookup `n` used by `formatRawData`:
`(author) => authorMap[author] || author` — exact key lookup in the map
(modelled as an association list in property-insertion order), falling back
to the raw identity when the key is absent or its value is falsy. -/
def lookupAuthor (authorMap : List (String × String)) (author : String) : String :=
  match authorMap.find? (fun kv => kv.1 == author) with
  | some kv => if kv.2 = "" then author else kv.2
  | none => author

/-- One rendered commit line. -/
def commitLine (n : String → String) (c : CommitRec) : String :=
  "[" ++ c.repo ++ "] " ++ n c.author ++ " (" ++ c.branch ++ "): " ++ c.message ++ " | " ++ c.url

/-- One rendered pull-request line, with merged/closed status override. -/
def prLine (n : String → String) (pr : PRStored) : String :=
  let status :=
    if pr.mergedAt ≠ "" then "MERGED " ++ pr.mergedAt
    else if pr.closedAt ≠ "" then "CLOSED " ++ pr.closedAt
    else pr.state
  "[" ++ pr.repo ++ "] [" ++ status ++ "] #" ++ toString pr.number ++ " " ++ pr.title
    ++ " by " ++ n pr.author ++ " | created:" ++ pr.createdAt ++ " | " ++ pr.url

/-- One rendered review line. -/
def reviewLine (n : String → String) (r : ReviewRec) : String :=
  "[" ++ r.repo ++ "] PR #" ++ toString r.prNumber ++ ": " ++ n r.reviewer ++ " → " ++ r.state

/-- One rendered comment line. -/
def commentLine (n : String → String) (c : CommentRec) : String :=
  let t := if c.isReviewComment then "code review on" else "commented on"
  "[" ++ c.repo ++ "] " ++ n c.author ++ " " ++ t ++ " #" ++ c.issueNumber ++ ": " ++ c.body

/-- One rendered issue line. -/
def issueLine (n : String → String) (i : IssueRec) : String :=
  "[" ++ i.repo ++ "] [" ++ i.state ++ "] #" ++ toString i.number ++ " " ++ i.title
    ++ " by " ++ n i.author ++ " | " ++ i.url

/-- One rendered release line. -/
def releaseLine (n : String → String) (r : ReleaseRec) : String :=
  "[" ++ r.repo ++ "] " ++ r.tag ++ " \"" ++ r.name ++ "\" by " ++ n r.author
    ++ " | " ++ r.publishedAt ++ " | " ++ r.url

/-- One rendered branch-event line. -/
def branchEventLine (n : String → String) (b : BranchEventRec) : String :=
  "[" ++ b.repo ++ "] " ++ n b.author ++ " " ++ b.action ++ " branch: " ++ b.branch

/-- One rendered membership-change line. -/
def memberEventLine (n : String → String) (m : MemberEventRec) : String :=
  "[" ++ m.repo ++ "] " ++ n m.member ++ " was " ++ m.action ++ " by " ++ n m.actor

/-- The rendered text: one labelled section per non-empty event kind, in the
source's fixed order, joined with newlines (empty sections are omitted). -/
def formatRawData (d : ActivityData) (authorMap : List (String × String)) : String :=
  let n := lookupAuthor authorMap
  let lines :=
    (if d.commits.length > 0 then "COMMITS:" :: d.commits.map (commitLine n) else [])
    ++ (if d.prs.length > 0 then "\nPULL REQUESTS:" :: d.prs.map (prLine n) else [])
    ++ (if d.reviews.length > 0 then "\nPR REVIEWS:" :: d.reviews.map (reviewLine n) else [])
    ++ (if d.comments.length > 0 then "\nCOMMENTS:" :: d.comments.map (commentLine n) else [])
    ++ (if d.issues.length > 0 then "\nISSUES:" :: d.issues.map (issueLine n) else [])
    ++ (if d.releases.length > 0 then "\nRELEASES:" :: d.releases.map (releaseLine n) else [])
    ++ (if d.branchEvents.length > 0 then "\nBRANCH EVENTS:" :: d.branchEvents.map (branchEventLine n) else [])
    ++ (if d.memberEvents.length > 0 then "\nMEMBERSHIP CHANGES:" :: d.memberEvents.map (memberEventLine n) else [])
  String.intercalate "\n" lines

/- ## Two-stage summarization pipeline (git-summary.js, `main`) -/

/-- Outcome of invoking an external text-generation capability: its complete
trimmed output on success, or a thrown error. -/
inductive CapResult where
  | ok : String → CapResult
  | err : String → CapResult
deriving DecidableEq, Repr

/-- Result of stage 1: the text handed to stage 2, whether it was
pre-processed, and whether the structuring capability was invoked at all. -/
structure Stage1Out where
  text : String
  pre : Bool
  invoked : Bool
deriving DecidableEq, Repr

/-- Stage 1 of `main` (lines 446–467): when `OPENROUTER_API_KEY` is set, call
the structuring capability; a non-empty result replaces the rendered text and
marks it pre-processed; an empty result or a thrown error falls back to the
unchanged rendered text.  Without the key the stage is skipped entirely. -/
def runStage1 (openrouterApiKey : String) (gemini : CapResult) (rawData : String) : Stage1Out :=
  if jsTruthy openrouterApiKey then
    match gemini with
    | CapResult.ok r => if r = "" then ⟨rawData, false, true⟩ else ⟨r, true, true⟩
    | CapResult.err _ => ⟨rawData, false, true⟩
  else ⟨rawData, false, false⟩

/-- The check `!webhookUrl || webhookUrl.includes('XXXXX')`, negated: the
webhook is usable. -/
def webhookOk (url : String) : Bool := !(url == "" || strContains url "XXXXX")

/-- The environment of one run: CLI flags, configuration, the collected data
set, and the (counterfactual) outcomes of the three external calls the run
may make. -/
structure Env where
  dryRun : Bool
  webhookUrl : String
  data : ActivityData
  authorMap : List (String × String)
  openrouterApiKey : String
  geminiResult : CapResult
  llmResult : CapResult
  slackOk : Bool

/-- How a run ended. -/
inductive Outcome where
  | configError
  | noActivity
  | llmError
  | emptySummary
  | dryRunShown
  | posted
  | postFailed
deriving DecidableEq, Repr

/-- Observable result of one run: process exit code, end state, whether the
structuring stage was invoked, the exact text handed to the formatting stage
(`none` when stage 2 was never invoked), the raw/pre-organized flag, whether
a delivery POST was attempted, and the final summary if one was produced. -/
structure RunResult where
  exitCode : Nat
  outcome : Outcome
  stage1Invoked : Bool
  stage2Input : Option String
  isPreprocessed : Bool
  postAttempted : Bool
  summary : Option String
deriving DecidableEq, Repr

/-- Stage 2 and delivery (git-summary.js lines 469–508, plus the
`main().catch` handler): `generateSlackSummary` re-throws an `execSync`
failure, which `main().catch` turns into exit code 1; an empty trimmed
summary is exit code 1; a dry run prints and exits 0; otherwise the summary
is POSTed and a non-2xx response is exit code 1. -/
def runStage2AndDeliver (llmResult : CapResult) (dryRun slackOk : Bool)
    (s1 : Stage1Out) : RunResult :=
  match llmResult with
  | CapResult.err _ =>
    ⟨1, Outcome.llmError, s1.invoked, some s1.text, s1.pre, false, none⟩
  | CapResult.ok summary =>
    if summary = "" then
      ⟨1, Outcome.emptySummary, s1.invoked, some s1.text, s1.pre, false, none⟩
    else if dryRun then
      ⟨0, Outcome.dryRunShown, s1.invoked, some s1.text, s1.pre, false, some summary⟩
    else if slackOk then
      ⟨0, Outcome.posted, s1.invoked, some s1.text, s1.pre, true, some summary⟩
    else
      ⟨1, Outcome.postFailed, s1.invoked, some s1.text, s1.pre, true, some summary⟩

/-- The control flow of `main` (git-summary.js lines 424–508) together with
the surrounding `main().catch` handler: configuration check, no-activity
early exit, stage 1 with fallback, then stage 2 and delivery. -/
def runMain (env : Env) : RunResult :=
  if !env.dryRun && !webhookOk env.webhookUrl then
    ⟨1, Outcome.configError, false, none, false, false, none⟩
  else if totalActivity env.data = 0 then
    ⟨0, Outcome.noActivity, false, none, false, false, none⟩
  else
    let rawData := formatRawData env.data env.authorMap
    runStage2AndDeliver env.llmResult env.dryRun env.slackOk
      (runStage1 env.openrouterApiKey env.geminiResult rawData)

/- ## Timeout options passed to the external calls -/

/-- Timeout (ms) passed to `execSync` for the stage-2 formatting command
(`generateSlackSummary`, line 415: `timeout: 120000`). -/
def llmCommandTimeoutMs : Option Nat := some 120000

/-- Timeout (ms) passed to `execSync` for every `gh` connector call
(line 24: `timeout: 30000`). -/
def ghTimeoutMs : Option Nat := some 30000

/-- The options object passed to `fetch` for the stage-1 OpenRouter call
(`preprocessWithGemini`, lines 349–360): method, headers and body only.
No timeout and no abort signal are passed, so `timeoutMs` is `none`. -/
structure GeminiFetchOptions where
  method : String
  contentTypeHeader : String
  hasAuthHeader : Bool
  timeoutMs : Option Nat
deriving DecidableEq, Repr

/-- The concrete options of the stage-1 `fetch` call. -/
def geminiFetchOptions : GeminiFetchOptions :=
  { method := "POST"
    contentTypeHeader := "application/json"
    hasAuthHeader := true
    timeoutMs := none }

/- ## Linear activity (linear-utils.js) -/

/-- A raw comment node from the Linear GraphQL response. -/
structure LinearRawComment where
  body : String
  authorName : String
  createdAt : Nat
deriving DecidableEq, Repr

/-- A raw issue node with its comment nodes (timestamps as parsed instants). -/
structure LinearIssue where
  identifier : String
  title : String
  createdAt : Nat
  comments : List LinearRawComment
deriving DecidableEq, Repr

/-- A collected comment: `{ issue, issueTitle, author, body, createdAt }`. -/
structure LinearComment where
  issue : String
  issueTitle : String
  author : String
  body : String
  createdAt : Nat
deriving DecidableEq, Repr

/-- The body cap: `body.length > 500 ? body.slice(0, 500) + '...' : body`. -/
def truncBody (b : String) : String :=
  if b.length > 500 then b.take 500 ++ "..." else b

/-- Build one collected comment with its issue context. -/
def mkLinearComment (i : LinearIssue) (c : LinearRawComment) : LinearComment :=
  { issue := i.identifier
    issueTitle := i.title
    author := c.authorName
    body := truncBody c.body
    createdAt := c.createdAt }

/-- All comments collected across all issues, in traversal order. -/
def collectLinearComments (issues : List LinearIssue) : List LinearComment :=
  issues.flatMap fun i => i.comments.map (mkLinearComment i)

/-- Insert a comment into a list already sorted newest-first. -/
def insertDesc (c : LinearComment) : List LinearComment → List LinearComment
  | [] => [c]
  | d :: ds => if d.createdAt < c.createdAt then c :: d :: ds else d :: insertDesc c ds

/-- Sort comments newest-first, modelling
`recentComments.sort((a, b) => new Date(b.createdAt) - new Date(a.createdAt))`. -/
def sortCommentsDesc (cs : List LinearComment) : List LinearComment :=
  cs.foldr insertDesc []

/-- The final `recentComments` list: sorted newest-first, then
`splice(20)` keeps only the first 20 entries. -/
def recentComments (issues : List LinearIssue) : List LinearComment :=
  (sortCommentsDesc (collectLinearComments issues)).take 20

/- ## Fuzzy author lookup (linear-utils.js, `mapName`) -/

/-- The fuzzy key test of `mapName`:
`name.toLowerCase().includes(key.toLowerCase()) || key.toLowerCase().includes(name.toLowerCase())`. -/
def fuzzyMatch (key name : String) : Bool :=
  strContains (lowerStr name) (lowerStr key) || strContains (lowerStr key) (lowerStr name)

/-- The `mapName` lookup of `formatLinearData`: `'Unassigned'` for a falsy
name, otherwise the value of the first map entry whose key fuzzy-matches the
name, falling back to the raw name when no entry matches. -/
def mapName (authorMap : List (String × String)) (name : String) : String :=
  if name = "" then "Unassigned"
  else
    match authorMap.find? (fun kv => fuzzyMatch kv.1 name) with
    | some kv => kv.2
    | none => name

/- ## Lemmas about commit deduplication -/

theorem collectCommitsAux_filter_of_seen (h : String) :
    ∀ (stream : List (String × String × RawCommit)) (seen : List String), h ∈ seen →
      (collectCommitsAux stream seen).filter (fun c => c.sha == h) = [] := by
  intro stream
  induction stream with
  | nil => intro seen _; simp [collectCommitsAux]
  | cons e rest ih =>
    intro seen hmem
    obtain ⟨fr, br, c⟩ := e
    by_cases hskip : c.sha = "" ∨ c.sha ∈ seen
    · rw [collectCommitsAux, if_pos hskip]
      exact ih seen hmem
    · rw [collectCommitsAux, if_neg hskip]
      push_neg at hskip
      have hne : c.sha ≠ h := fun heq => hskip.2 (heq ▸ hmem)
      have hhead : ((mkCommitRec fr br c).sha == h) = false := by
        simp [mkCommitRec, hne]
      rw [List.filter_cons, hhead]
      simp only [Bool.false_eq_true, if_false]
      exact ih (c.sha :: seen) (List.mem_cons_of_mem _ hmem)

theorem collectCommitsAux_filter_first (h : String) (e : String × String × RawCommit) :
    ∀ (stream : List (String × String × RawCommit)) (seen : List String),
      h ≠ "" → h ∉ seen →
      stream.find? (fun x => x.2.2.sha == h) = some e →
      (collectCommitsAux stream seen).filter (fun c => c.sha == h)
        = [mkCommitRec e.1 e.2.1 e.2.2] := by
  intro stream
  induction stream with
  | nil => intro seen _ _ hfind; simp at hfind
  | cons x rest ih =>
    intro seen hne hnotseen hfind
    obtain ⟨fr, br, c⟩ := x
    by_cases hmatch : c.sha = h
    · have hpos : (c.sha == h) = true := by simp [hmatch]
      simp only [List.find?_cons, hpos] at hfind
      have he : e = (fr, br, c) := by exact (Option.some_inj.mp hfind).symm
      subst he
      have hskip : ¬(c.sha = "" ∨ c.sha ∈ seen) := by
        rw [hmatch]; exact fun hx => hx.elim hne hnotseen
      rw [collectCommitsAux, if_neg hskip]
      have hhead : ((mkCommitRec fr br c).sha == h) = true := by
        simp [mkCommitRec, hmatch]
      rw [List.filter_cons, hhead]
      simp only [if_true]
      rw [collectCommitsAux_filter_of_seen h rest (c.sha :: seen) (by rw [hmatch.symm]; exact List.mem_cons_self _ _)]
    · have hneg : (c.sha == h) = false := by simp [hmatch]
      simp only [List.find?_cons, hneg] at hfind
      by_cases hskip : c.sha = "" ∨ c.sha ∈ seen
      · rw [collectCommitsAux, if_pos hskip]
        exact ih seen hne hnotseen hfind
      · rw [collectCommitsAux, if_neg hskip]
        have hhead : ((mkCommitRec fr br c).sha == h) = false := by
          simp [mkCommitRec, hmatch]
        rw [List.filter_cons, hhead]
        simp only [Bool.false_eq_true, if_false]
        refine ih (c.sha :: seen) hne ?_ hfind
        intro hmem
        rcases List.mem_cons.mp hmem with heq | hmem'
        · exact hmatch heq.symm
        · exact hnotseen hmem'

/-- C1: for every collection of raw commit records in which the same content
hash is reachable from two or more different branch listings, the aggregated
data set contains exactly one commit record for that hash, and the record
kept is the one built from the first occurrence in scan order; later
duplicates are discarded (the collector is a total function, so no error is
possible). -/
theorem commit_dedup_across_branch_listings (repos : List RepoListing) (h : String)
    (e₁ e₂ : String × String × RawCommit)
    (h0 : h ≠ "")
    (h1 : e₁ ∈ rawStream repos) (h2 : e₂ ∈ rawStream repos)
    (hs1 : e₁.2.2.sha = h) (hs2 : e₂.2.2.sha = h)
    (hdiff : (e₁.1, e₁.2.1) ≠ (e₂.1, e₂.2.1)) :
    ∃ e, (rawStream repos).find? (fun x => x.2.2.sha == h) = some e ∧
      e.2.2.sha = h ∧
      (collectCommits repos).filter (fun c => c.sha == h)
        = [mkCommitRec e.1 e.2.1 e.2.2] := by
  have hex : ((rawStream repos).find? (fun x => x.2.2.sha == h)).isSome := by
    rw [List.find?_isSome]
    exact ⟨e₁, h1, by simp [hs1]⟩
  obtain ⟨e, he⟩ := Option.isSome_iff_exists.mp hex
  refine ⟨e, he, ?_, ?_⟩
  · have := List.find?_some he
    simpa using this
  · exact collectCommitsAux_filter_first h e (rawStream repos) [] h0 (by simp) he

/-- Witness for C1 on a concrete run: one repository whose `main` and
`feature` branch listings both report the commit with hash `sha1`. -/
theorem commit_dedup_across_branch_listings_witness :
    ∃ e, (rawStream [⟨"org/alpha",
        [⟨"main", [⟨"sha1", "alice", "fix build"⟩]⟩,
         ⟨"feature", [⟨"sha1", "alice", "fix build"⟩]⟩]⟩]).find?
          (fun x => x.2.2.sha == "sha1") = some e ∧
      e.2.2.sha = "sha1" ∧
      (collectCommits [⟨"org/alpha",
        [⟨"main", [⟨"sha1", "alice", "fix build"⟩]⟩,
         ⟨"feature", [⟨"sha1", "alice", "fix build"⟩]⟩]⟩]).filter
          (fun c => c.sha == "sha1") = [mkCommitRec e.1 e.2.1 e.2.2] :=
  commit_dedup_across_branch_listings _ "sha1"
    ("org/alpha", "main", ⟨"sha1", "alice", "fix build"⟩)
    ("org/alpha", "feature", ⟨"sha1", "alice", "fix build"⟩)
    (by decide) (by decide) (by decide) (by decide) (by decide) (by decide)

/-- C9: the `seenSHAs` set is shared across all repositories scanned in one
run: when the same hash is reported by branch listings of two different
repositories, the aggregated data set keeps exactly one commit record for
it — the one built from the first occurrence in scan order, hence attributed
to the repository and branch scanned first. -/
theorem commit_dedup_shared_across_repos (repos : List RepoListing) (h : String)
    (e₁ e₂ : String × String × RawCommit)
    (h0 : h ≠ "")
    (h1 : e₁ ∈ rawStream repos) (h2 : e₂ ∈ rawStream repos)
    (hs1 : e₁.2.2.sha = h) (hs2 : e₂.2.2.sha = h)
    (hdiff : e₁.1 ≠ e₂.1) :
    ∃ e, (rawStream repos).find? (fun x => x.2.2.sha == h) = some e ∧
      (collectCommits repos).filter (fun c => c.sha == h)
        = [mkCommitRec e.1 e.2.1 e.2.2] ∧
      (mkCommitRec e.1 e.2.1 e.2.2).fullRepo = e.1 ∧
      (mkCommitRec e.1 e.2.1 e.2.2).branch = e.2.1 := by
  have hex : ((rawStream repos).find? (fun x => x.2.2.sha == h)).isSome := by
    rw [List.find?_isSome]
    exact ⟨e₁, h1, by simp [hs1]⟩
  obtain ⟨e, he⟩ := Option.isSome_iff_exists.mp hex
  exact ⟨e, he,
    collectCommitsAux_filter_first h e (rawStream repos) [] h0 (by simp) he,
    rfl, rfl⟩

/-- Witness for C9 on a concrete run: two repositories (an upstream and a
fork) both report the commit with hash `abc123`. -/
theorem commit_dedup_shared_across_repos_witness :
    ∃ e, (rawStream [⟨"org/upstream", [⟨"main", [⟨"abc123", "bob", "add api"⟩]⟩]⟩,
                     ⟨"org/fork", [⟨"main", [⟨"abc123", "bob", "add api"⟩]⟩]⟩]).find?
          (fun x => x.2.2.sha == "abc123") = some e ∧
      (collectCommits [⟨"org/upstream", [⟨"main", [⟨"abc123", "bob", "add api"⟩]⟩]⟩,
                       ⟨"org/fork", [⟨"main", [⟨"abc123", "bob", "add api"⟩]⟩]⟩]).filter
          (fun c => c.sha == "abc123") = [mkCommitRec e.1 e.2.1 e.2.2] ∧
      (mkCommitRec e.1 e.2.1 e.2.2).fullRepo = e.1 ∧
      (mkCommitRec e.1 e.2.1 e.2.2).branch = e.2.1 :=
  commit_dedup_shared_across_repos _ "abc123"
    ("org/upstream", "main", ⟨"abc123", "bob", "add api"⟩)
    ("org/fork", "main", ⟨"abc123", "bob", "add api"⟩)
    (by decide) (by decide) (by decide) (by decide) (by decide) (by decide)

/- ## Lemmas about comment deduplication -/

theorem dedupCommentsAux_filter_of_seen (k : String) :
    ∀ (cs : List CommentRec) (seen : List String), k ∈ seen →
      (dedupCommentsAux cs seen).filter (fun c => commentKey c == k) = [] := by
  intro cs
  induction cs with
  | nil => intro seen _; simp [dedupCommentsAux]
  | cons c rest ih =>
    intro seen hmem
    by_cases hskip : commentKey c ∈ seen
    · rw [dedupCommentsAux, if_pos hskip]
      exact ih seen hmem
    · rw [dedupCommentsAux, if_neg hskip]
      have hne : (commentKey c == k) = false := by
        simp only [beq_eq_false_iff_ne, ne_eq]
        exact fun heq => hskip (heq ▸ hmem)
      rw [List.filter_cons, hne]
      simp only [Bool.false_eq_true, if_false]
      exact ih (commentKey c :: seen) (List.mem_cons_of_mem _ hmem)

theorem dedupCommentsAux_filter_first (k : String) (e : CommentRec) :
    ∀ (cs : List CommentRec) (seen : List String), k ∉ seen →
      cs.find? (fun c => commentKey c == k) = some e →
      (dedupCommentsAux cs seen).filter (fun c => commentKey c == k) = [e] := by
  intro cs
  induction cs with
  | nil => intro seen _ hfind; simp at hfind
  | cons c rest ih =>
    intro seen hnotseen hfind
    by_cases hmatch : commentKey c = k
    · have hpos : (commentKey c == k) = true := by simp [hmatch]
      simp only [List.find?_cons, hpos] at hfind
      have he : e = c := (Option.some_inj.mp hfind).symm
      subst he
      have hskip : commentKey e ∉ seen := by rw [hmatch]; exact hnotseen
      rw [dedupCommentsAux, if_neg hskip]
      rw [List.filter_cons, hpos]
      simp only [if_true]
      rw [dedupCommentsAux_filter_of_seen k rest (commentKey e :: seen)
        (by rw [hmatch.symm]; exact List.mem_cons_self _ _)]
    · have hneg : (commentKey c == k) = false := by simp [hmatch]
      simp only [List.find?_cons, hneg] at hfind
      by_cases hskip : commentKey c ∈ seen
      · rw [dedupCommentsAux, if_pos hskip]
        exact ih seen hnotseen hfind
      · rw [dedupCommentsAux, if_neg hskip]
        rw [List.filter_cons, hneg]
        simp only [Bool.false_eq_true, if_false]
        refine ih (commentKey c :: seen) ?_ hfind
        intro hmem
        rcases List.mem_cons.mp hmem with heq | hmem'
        · exact hmatch heq.symm
        · exact hnotseen hmem'

/-- C2: when two listing sources (the issue-comments endpoint and the PR
review-comments endpoint) report comment records with identical
(repo, author, target item number, creation timestamp), the deduplicated
comment list contains exactly one record for that key, namely the first-seen
one in list order. -/
theorem comment_dedup_overlapping_sources (cs : List CommentRec) (c₁ c₂ : CommentRec)
    (h1 : c₁ ∈ cs) (h2 : c₂ ∈ cs)
    (hrepo : c₁.repo = c₂.repo) (hauthor : c₁.author = c₂.author)
    (hnum : c₁.issueNumber = c₂.issueNumber) (hts : c₁.createdAt = c₂.createdAt) :
    commentKey c₁ = commentKey c₂ ∧
    ∃ e, cs.find? (fun c => commentKey c == commentKey c₁) = some e ∧
      (dedupComments cs).filter (fun c => commentKey c == commentKey c₁) = [e] := by
  have hkey : commentKey c₁ = commentKey c₂ := by
    simp [commentKey, hrepo, hauthor, hnum, hts]
  have hex : (cs.find? (fun c => commentKey c == commentKey c₁)).isSome := by
    rw [List.find?_isSome]
    exact ⟨c₁, h1, by simp⟩
  obtain ⟨e, he⟩ := Option.isSome_iff_exists.mp hex
  exact ⟨hkey, e, he,
    dedupCommentsAux_filter_first (commentKey c₁) e cs [] (by simp) he⟩

/-- Witness for C2 on a concrete list: the same remark reported once by the
issue-comments listing and once by the review-comments listing. -/
theorem comment_dedup_overlapping_sources_witness :
    commentKey ⟨"repo1", "carol", "7", "LGTM", "2025-05-01T10:00:00Z", false⟩
      = commentKey ⟨"repo1", "carol", "7", "LGTM!", "2025-05-01T10:00:00Z", true⟩ ∧
    ∃ e, ([⟨"repo1", "carol", "7", "LGTM", "2025-05-01T10:00:00Z", false⟩,
           ⟨"repo1", "carol", "7", "LGTM!", "2025-05-01T10:00:00Z", true⟩] :
            List CommentRec).find?
        (fun c => commentKey c ==
          commentKey ⟨"repo1", "carol", "7", "LGTM", "2025-05-01T10:00:00Z", false⟩) = some e ∧
      (dedupComments [⟨"repo1", "carol", "7", "LGTM", "2025-05-01T10:00:00Z", false⟩,
                      ⟨"repo1", "carol", "7", "LGTM!", "2025-05-01T10:00:00Z", true⟩]).filter
        (fun c => commentKey c ==
          commentKey ⟨"repo1", "carol", "7", "LGTM", "2025-05-01T10:00:00Z", false⟩) = [e] :=
  comment_dedup_overlapping_sources _
    ⟨"repo1", "carol", "7", "LGTM", "2025-05-01T10:00:00Z", false⟩
    ⟨"repo1", "carol", "7", "LGTM!", "2025-05-01T10:00:00Z", true⟩
    (by decide) (by decide) (by decide) (by decide) (by decide) (by decide)

/- ## Lemmas about the lexicographic order on strings -/

theorem leChars_nil_left (l : List Char) : leChars [] l = true := by
  rw [leChars]

theorem leChars_nil_right (l : List Char) : leChars l [] = true → l = [] := by
  cases l with
  | nil => intro _; rfl
  | cons a as => intro hc; rw [leChars] at hc; exact absurd hc (by simp)

theorem strLe_empty_left (t : String) : strLe "" t = true := by
  have hd : ("" : String).data = [] := rfl
  rw [strLe, hd]
  exact leChars_nil_left t.data

theorem strLe_empty_right (s : String) : strLe s "" = true → s = "" := by
  intro hle
  have hd : ("" : String).data = [] := rfl
  rw [strLe, hd] at hle
  have := leChars_nil_right s.data hle
  cases s with
  | mk data => simp at this; rw [this]

/-- C3: a pull request passes the inclusion filter iff at least one of its
lifecycle timestamps — createdAt, mergedAt (when present), closedAt (when
present) — is `>= since`; and the inclusion test never consults the
general last-updated timestamp: changing `updatedAt` arbitrarily never
changes the test's verdict. -/
theorem pr_touched_in_window_test (since : String) (prs : List PRRaw) (pr : PRRaw) :
    (pr ∈ prs.filter (prInWindow since) ↔
      pr ∈ prs ∧ (strLe since pr.createdAt = true
        ∨ (∃ m, pr.mergedAt = some m ∧ strLe since m = true)
        ∨ (∃ c, pr.closedAt = some c ∧ strLe since c = true)))
    ∧ (∀ u, prInWindow since { pr with updatedAt := u } = prInWindow since pr) := by
  constructor
  · rw [List.mem_filter]
    constructor
    · rintro ⟨hmem, hwin⟩
      refine ⟨hmem, ?_⟩
      rw [prInWindow, Bool.or_eq_true, Bool.or_eq_true] at hwin
      rcases hwin with (hc | hm) | hcl
      · exact Or.inl hc
      · rw [Bool.and_eq_true] at hm
        cases hma : pr.mergedAt with
        | none => rw [hma] at hm; exact absurd hm.1 (by simp [optTruthy])
        | some m =>
          refine Or.inr (Or.inl ⟨m, rfl, ?_⟩)
          have := hm.2
          rwa [hma, Option.getD_some] at this
      · rw [Bool.and_eq_true] at hcl
        cases hca : pr.closedAt with
        | none => rw [hca] at hcl; exact absurd hcl.1 (by simp [optTruthy])
        | some c =>
          refine Or.inr (Or.inr ⟨c, rfl, ?_⟩)
          have := hcl.2
          rwa [hca, Option.getD_some] at this
    · rintro ⟨hmem, hdisj⟩
      refine ⟨hmem, ?_⟩
      rw [prInWindow, Bool.or_eq_true, Bool.or_eq_true]
      rcases hdisj with hc | ⟨m, hma, hm⟩ | ⟨c, hca, hc⟩
      · exact Or.inl (Or.inl hc)
      · by_cases hme : m = ""
        · subst hme
          have hsince : since = "" := strLe_empty_right since hm
          subst hsince
          exact Or.inl (Or.inl (strLe_empty_left pr.createdAt))
        · refine Or.inl (Or.inr ?_)
          rw [Bool.and_eq_true, hma, Option.getD_some]
          exact ⟨by simp [optTruthy, hme], hm⟩
      · by_cases hce : c = ""
        · subst hce
          have hsince : since = "" := strLe_empty_right since hc
          subst hsince
          exact Or.inl (Or.inl (strLe_empty_left pr.createdAt))
        · refine Or.inr ?_
          rw [Bool.and_eq_true, hca, Option.getD_some]
          exact ⟨by simp [optTruthy, hce], hc⟩
  · intro u
    rfl

/-- Example PR: created long before the window but merged inside it. -/
def exPR : PRRaw :=
  ⟨7, "Add OAuth2", some "alice", "MERGED", "2025-03-01T08:00:00Z",
    some "2025-06-02T09:00:00Z", some "2025-06-02T09:00:00Z", "2025-06-03T00:00:00Z"⟩

/-- Witness for C3 at a concrete input: `exPR` is included because of its
merge timestamp, and its `updatedAt` field is irrelevant to the verdict. -/
theorem pr_touched_in_window_test_witness :
    exPR ∈ ([exPR].filter (prInWindow "2025-06-02T00:00:00Z")) ∧
    prInWindow "2025-06-02T00:00:00Z" { exPR with updatedAt := "1999-01-01T00:00:00Z" }
      = prInWindow "2025-06-02T00:00:00Z" exPR := by
  constructor
  · exact (pr_touched_in_window_test "2025-06-02T00:00:00Z" [exPR] exPR).1.mpr
      ⟨by decide, Or.inr (Or.inl ⟨"2025-06-02T09:00:00Z", rfl, by decide⟩)⟩
  · exact (pr_touched_in_window_test "2025-06-02T00:00:00Z" [exPR] exPR).2 "1999-01-01T00:00:00Z"

/- ## Author-name lookup -/

/-- Counterexample for C4: the author lookup actually used when rendering the
git activity text (`n = (author) => authorMap[author] || author` in
`formatRawData`) is an exact key lookup, not the fuzzy one: with the map
entry `("alice", "Alice Smith")` and the identity `"Alice"`, the key and the
identity match by case-insensitive substring containment in both directions,
and the Linear-side `mapName` indeed maps it, yet the git renderer's lookup
returns the raw identity. -/
theorem render_author_lookup_fuzzy_cex :
    fuzzyMatch "alice" "Alice" = true ∧
    mapName [("alice", "Alice Smith")] "Alice" = "Alice Smith" ∧
    lookupAuthor [("alice", "Alice Smith")] "Alice" = "Alice" ∧
    lookupAuthor [("alice", "Alice Smith")] "Alice" ≠ "Alice Smith" := by
  refine ⟨by decide, by decide, by decide, by decide⟩

/-- C4 (amended): the Linear renderer's lookup `mapName` is total and fuzzy —
it returns the first map entry's display name whenever the identity and that
entry's key match by case-insensitive substring containment in either
direction, and returns the raw identity unchanged when no key matches; the
git renderer's lookup `n` in `formatRawData` is total but exact: it returns
the mapped display name only on exact key equality, and otherwise returns
the raw identity unchanged.  Both are total functions and never error. -/
theorem author_lookup_total_amended (m : List (String × String)) (name a : String)
    (hname : name ≠ "") :
    ((∀ kv ∈ m, fuzzyMatch kv.1 name = false) → mapName m name = name) ∧
    ((∃ kv ∈ m, fuzzyMatch kv.1 name = true) →
      ∃ kv ∈ m, fuzzyMatch kv.1 name = true ∧ mapName m name = kv.2) ∧
    (lookupAuthor m a = a ∨ ∃ kv ∈ m, kv.1 = a ∧ lookupAuthor m a = kv.2) := by
  refine ⟨?_, ?_, ?_⟩
  · intro hnone
    rw [mapName, if_neg hname]
    have : m.find? (fun kv => fuzzyMatch kv.1 name) = none := by
      rw [List.find?_eq_none]
      intro kv hkv
      simp [hnone kv hkv]
    rw [this]
  · intro hex
    have hsome : (m.find? (fun kv => fuzzyMatch kv.1 name)).isSome := by
      rw [List.find?_isSome]
      obtain ⟨kv, hkv, hf⟩ := hex
      exact ⟨kv, hkv, hf⟩
    obtain ⟨kv, hkv⟩ := Option.isSome_iff_exists.mp hsome
    refine ⟨kv, List.mem_of_find?_eq_some hkv, ?_, ?_⟩
    · have h := List.find?_some hkv
      simpa using h
    · rw [mapName, if_neg hname, hkv]
  · cases hfind : m.find? (fun kv => kv.1 == a) with
    | none =>
      left
      simp only [lookupAuthor, hfind]
    | some kv =>
      by_cases hv : kv.2 = ""
      · left
        simp only [lookupAuthor, hfind]
        simp [hv]
      · right
        refine ⟨kv, List.mem_of_find?_eq_some hfind, ?_, ?_⟩
        · have h := List.find?_some hfind
          simpa using h
        · simp only [lookupAuthor, hfind]
          simp [hv]

/-- Witness for C4 (amended) at concrete inputs: the map `[("bob", "Bobby")]`,
the Linear display name `"Bob McRib"` (a fuzzy hit) and the git identity
`"alice-gh"` (no exact hit). -/
theorem author_lookup_total_amended_witness :
    ((∀ kv ∈ [("bob", "Bobby")], fuzzyMatch kv.1 "Bob McRib" = false) →
      mapName [("bob", "Bobby")] "Bob McRib" = "Bob McRib") ∧
    ((∃ kv ∈ [("bob", "Bobby")], fuzzyMatch kv.1 "Bob McRib" = true) →
      ∃ kv ∈ [("bob", "Bobby")], fuzzyMatch kv.1 "Bob McRib" = true ∧
        mapName [("bob", "Bobby")] "Bob McRib" = kv.2) ∧
    (lookupAuthor [("bob", "Bobby")] "alice-gh" = "alice-gh" ∨
      ∃ kv ∈ [("bob", "Bobby")], kv.1 = "alice-gh" ∧
        lookupAuthor [("bob", "Bobby")] "alice-gh" = kv.2) :=
  author_lookup_total_amended [("bob", "Bobby")] "Bob McRib" "alice-gh" (by decide)

/- ## Lemmas about the pipeline -/

theorem runMain_active (env : Env)
    (hreach : env.dryRun = true ∨ webhookOk env.webhookUrl = true)
    (hact : totalActivity env.data ≠ 0) :
    runMain env = runStage2AndDeliver env.llmResult env.dryRun env.slackOk
      (runStage1 env.openrouterApiKey env.geminiResult
        (formatRawData env.data env.authorMap)) := by
  rw [runMain]
  have hcond : (!env.dryRun && !webhookOk env.webhookUrl) = false := by
    rcases hreach with h | h <;> simp [h]
  rw [hcond]
  simp only [Bool.false_eq_true, if_false]
  rw [if_neg hact]

theorem runStage1_degraded (key : String) (g : CapResult) (raw : String)
    (hdeg : key = "" ∨ g = CapResult.ok "" ∨ ∃ e, g = CapResult.err e) :
    (runStage1 key g raw).text = raw ∧ (runStage1 key g raw).pre = false := by
  rcases hdeg with h | h | ⟨e, h⟩
  · subst h
    simp [runStage1, jsTruthy]
  · subst h
    by_cases hk : jsTruthy key = true <;> simp [runStage1, hk]
  · subst h
    by_cases hk : jsTruthy key = true <;> simp [runStage1, hk]

theorem runStage2_input_fields (l : CapResult) (d k : Bool) (s1 : Stage1Out) :
    (runStage2AndDeliver l d k s1).stage2Input = some s1.text ∧
    (runStage2AndDeliver l d k s1).isPreprocessed = s1.pre ∧
    (runStage2AndDeliver l d k s1).stage1Invoked = s1.invoked := by
  cases l with
  | err e => simp [runStage2AndDeliver]
  | ok s =>
    by_cases hs : s = "" <;> cases d <;> cases k <;>
      simp [runStage2AndDeliver, hs]

theorem runStage2_indep_of_stage1 (l : CapResult) (d k : Bool) (s1 s1' : Stage1Out) :
    (runStage2AndDeliver l d k s1).exitCode = (runStage2AndDeliver l d k s1').exitCode ∧
    (runStage2AndDeliver l d k s1).outcome = (runStage2AndDeliver l d k s1').outcome ∧
    (runStage2AndDeliver l d k s1).postAttempted
      = (runStage2AndDeliver l d k s1').postAttempted ∧
    (runStage2AndDeliver l d k s1).summary = (runStage2AndDeliver l d k s1').summary := by
  cases l with
  | err e => simp [runStage2AndDeliver]
  | ok s =>
    by_cases hs : s = "" <;> cases d <;> cases k <;>
      simp [runStage2AndDeliver, hs]

/-- C5: when the structuring capability is absent (no OpenRouter key), throws,
or returns an empty result, the formatting stage still runs and receives the
original rendered text unchanged, labelled as raw (`isPreprocessed = false`);
and the run's observable outcome — exit code, end state, delivery attempt and
summary — is exactly the one of the same run with the structuring capability
absent, so stage-1 absence or failure alone never fails the run. -/
theorem stage1_degraded_falls_back_to_raw (env : Env)
    (hreach : env.dryRun = true ∨ webhookOk env.webhookUrl = true)
    (hact : totalActivity env.data ≠ 0)
    (hdeg : env.openrouterApiKey = "" ∨ env.geminiResult = CapResult.ok ""
      ∨ ∃ e, env.geminiResult = CapResult.err e) :
    (runMain env).stage2Input = some (formatRawData env.data env.authorMap) ∧
    (runMain env).isPreprocessed = false ∧
    (runMain env).exitCode = (runMain { env with openrouterApiKey := "" }).exitCode ∧
    (runMain env).outcome = (runMain { env with openrouterApiKey := "" }).outcome ∧
    (runMain env).postAttempted
      = (runMain { env with openrouterApiKey := "" }).postAttempted ∧
    (runMain env).summary = (runMain { env with openrouterApiKey := "" }).summary := by
  set raw := formatRawData env.data env.authorMap with hraw
  have h1 := runMain_active env hreach hact
  have h1' := runMain_active { env with openrouterApiKey := "" }
    (by simpa using hreach) (by simpa using hact)
  have hs1 := runStage1_degraded env.openrouterApiKey env.geminiResult raw hdeg
  have hs1' := runStage1_degraded "" env.geminiResult raw (Or.inl rfl)
  have hin := runStage2_input_fields env.llmResult env.dryRun env.slackOk
    (runStage1 env.openrouterApiKey env.geminiResult raw)
  have hind := runStage2_indep_of_stage1 env.llmResult env.dryRun env.slackOk
    (runStage1 env.openrouterApiKey env.geminiResult raw)
    (runStage1 "" env.geminiResult raw)
  refine ⟨?_, ?_, ?_, ?_, ?_, ?_⟩
  · rw [h1, hin.1, hs1.1]
  · rw [h1, hin.2.1, hs1.2]
  · rw [h1, h1']; exact hind.1
  · rw [h1, h1']; exact hind.2.1
  · rw [h1, h1']; exact hind.2.2.1
  · rw [h1, h1']; exact hind.2.2.2

/-- Example collected data set with a single commit (total activity 1). -/
def exData1 : ActivityData :=
  ⟨[mkCommitRec "org/alpha" "main" ⟨"sha1", "alice", "fix build"⟩], [], [], [], [], [], [], []⟩

/-- Example collected data set with no activity at all. -/
def exData0 : ActivityData := ⟨[], [], [], [], [], [], [], []⟩

/-- Example run environment: a dry run with one commit collected, an
OpenRouter key configured, a throwing structuring capability, and a working
formatting capability. -/
def exEnvC5 : Env :=
  ⟨true, "", exData1, [], "sk-or-key", CapResult.err "HTTP 500",
    CapResult.ok "daily summary", true⟩

/-- Witness for C5 on a concrete dry run whose structuring capability throws. -/
theorem stage1_degraded_falls_back_to_raw_witness :
    (runMain exEnvC5).stage2Input
      = some (formatRawData exEnvC5.data exEnvC5.authorMap) ∧
    (runMain exEnvC5).isPreprocessed = false ∧
    (runMain exEnvC5).exitCode
      = (runMain { exEnvC5 with openrouterApiKey := "" }).exitCode ∧
    (runMain exEnvC5).outcome
      = (runMain { exEnvC5 with openrouterApiKey := "" }).outcome ∧
    (runMain exEnvC5).postAttempted
      = (runMain { exEnvC5 with openrouterApiKey := "" }).postAttempted ∧
    (runMain exEnvC5).summary
      = (runMain { exEnvC5 with openrouterApiKey := "" }).summary :=
  stage1_degraded_falls_back_to_raw exEnvC5
    (Or.inl rfl) (by decide) (Or.inr (Or.inr ⟨"HTTP 500", rfl⟩))

/-- C6: when the formatting capability fails — the invoked command throws or
exits non-zero (a `CapResult.err`), or returns an empty trimmed result — the
run terminates with exit code 1, its end state is the reported error state
(`llmError` or `emptySummary`), and no delivery POST is attempted. -/
theorem stage2_failure_fatal_no_delivery (env : Env)
    (hreach : env.dryRun = true ∨ webhookOk env.webhookUrl = true)
    (hact : totalActivity env.data ≠ 0)
    (hfail : (∃ e, env.llmResult = CapResult.err e) ∨ env.llmResult = CapResult.ok "") :
    (runMain env).exitCode = 1 ∧
    (runMain env).postAttempted = false ∧
    ((runMain env).outcome = Outcome.llmError ∨
      (runMain env).outcome = Outcome.emptySummary) := by
  rw [runMain_active env hreach hact]
  rcases hfail with ⟨e, h⟩ | h <;> rw [h] <;> simp [runStage2AndDeliver]

/-- Example run environment: a live run with one commit collected whose
formatting command exits non-zero. -/
def exEnvC6 : Env :=
  ⟨false, "https://hooks.slack.example/T000/B000", exData1, [],
    "", CapResult.ok "", CapResult.err "LLM failed (claude -p -): exit 1", true⟩

/-- Witness for C6 on a concrete run whose formatting command exits non-zero. -/
theorem stage2_failure_fatal_no_delivery_witness :
    (runMain exEnvC6).exitCode = 1 ∧
    (runMain exEnvC6).postAttempted = false ∧
    ((runMain exEnvC6).outcome = Outcome.llmError ∨
      (runMain exEnvC6).outcome = Outcome.emptySummary) :=
  stage2_failure_fatal_no_delivery exEnvC6
    (Or.inr (by decide)) (by decide)
    (Or.inl ⟨"LLM failed (claude -p -): exit 1", rfl⟩)

/-- C7: a run that reaches aggregation and finds total activity zero exits
with code 0, invokes neither summarization stage nor the delivery POST, and
ends in the `noActivity` state, which is not an error state. -/
theorem no_activity_clean_exit (env : Env)
    (hreach : env.dryRun = true ∨ webhookOk env.webhookUrl = true)
    (hzero : totalActivity env.data = 0) :
    runMain env = ⟨0, Outcome.noActivity, false, none, false, false, none⟩ := by
  rw [runMain]
  have hcond : (!env.dryRun && !webhookOk env.webhookUrl) = false := by
    rcases hreach with h | h <;> simp [h]
  rw [hcond]
  simp [hzero]

/-- Witness for C7 on a concrete run with an empty collected data set. -/
theorem no_activity_clean_exit_witness :
    runMain ⟨false, "https://hooks.slack.example/T000/B000", exData0, [],
        "", CapResult.ok "", CapResult.ok "unused", true⟩
      = ⟨0, Outcome.noActivity, false, none, false, false, none⟩ :=
  no_activity_clean_exit _ (Or.inr (by decide)) (by decide)

/-- Counterexample for C8: not every text-generation capability invocation is
bounded by a fixed timeout.  The stage-2 `execSync` call passes
`timeout: 120000`, but the stage-1 structuring call is a `fetch` whose
options object carries neither a timeout nor an abort signal. -/
theorem capability_timeout_cex :
    geminiFetchOptions.timeoutMs = none ∧ llmCommandTimeoutMs = some 120000 :=
  ⟨rfl, rfl⟩

/-- C8 (amended): only the stage-2 formatting invocation is bounded by a
fixed timeout (120000 ms passed to `execSync`); its expiry surfaces as a
thrown error, which is treated identically to any other capability failure —
fatal to the run, exit code 1, no delivery.  The stage-1 structuring fetch
carries no code-level timeout bound at all. -/
theorem stage2_timeout_bounded_amended (env : Env) (e : String)
    (hreach : env.dryRun = true ∨ webhookOk env.webhookUrl = true)
    (hact : totalActivity env.data ≠ 0)
    (herr : env.llmResult = CapResult.err e) :
    llmCommandTimeoutMs = some 120000 ∧
    geminiFetchOptions.timeoutMs = none ∧
    (runMain env).exitCode = 1 ∧
    (runMain env).postAttempted = false ∧
    (runMain env).outcome = Outcome.llmError := by
  refine ⟨rfl, rfl, ?_, ?_, ?_⟩ <;>
    rw [runMain_active env hreach hact, herr] <;> simp [runStage2AndDeliver]

/-- Example run environment: a dry run with one commit collected whose
formatting command hits its 120 s timeout and throws. -/
def exEnvC8 : Env :=
  ⟨true, "", exData1, [], "", CapResult.ok "",
    CapResult.err "LLM failed (claude -p -): ETIMEDOUT", true⟩

/-- Witness for C8 (amended) on a concrete run whose formatting command
times out. -/
theorem stage2_timeout_bounded_amended_witness :
    llmCommandTimeoutMs = some 120000 ∧
    geminiFetchOptions.timeoutMs = none ∧
    (runMain exEnvC8).exitCode = 1 ∧
    (runMain exEnvC8).postAttempted = false ∧
    (runMain exEnvC8).outcome = Outcome.llmError :=
  stage2_timeout_bounded_amended exEnvC8 "LLM failed (claude -p -): ETIMEDOUT"
    (Or.inl rfl) (by decide) rfl

/- ## Lemmas about the Linear recent-comments list -/

theorem mem_insertDesc (c x : LinearComment) :
    ∀ l : List LinearComment, x ∈ insertDesc c l ↔ x = c ∨ x ∈ l := by
  intro l
  induction l with
  | nil => simp [insertDesc]
  | cons d ds ih =>
    rw [insertDesc]
    by_cases hlt : d.createdAt < c.createdAt
    · rw [if_pos hlt]
      simp [List.mem_cons]
    · rw [if_neg hlt]
      simp only [List.mem_cons, ih]
      tauto

theorem pairwise_insertDesc (c : LinearComment) :
    ∀ l : List LinearComment,
      l.Pairwise (fun a b => b.createdAt ≤ a.createdAt) →
      (insertDesc c l).Pairwise (fun a b => b.createdAt ≤ a.createdAt) := by
  intro l
  induction l with
  | nil => intro _; simp [insertDesc]
  | cons d ds ih =>
    intro hp
    rw [List.pairwise_cons] at hp
    rw [insertDesc]
    by_cases hlt : d.createdAt < c.createdAt
    · rw [if_pos hlt]
      rw [List.pairwise_cons]
      refine ⟨?_, ?_⟩
      · intro y hy
        rcases List.mem_cons.mp hy with hyd | hyds
        · rw [hyd]; exact Nat.le_of_lt hlt
        · exact Nat.le_trans (hp.1 y hyds) (Nat.le_of_lt hlt)
      · rw [List.pairwise_cons]
        exact hp
    · rw [if_neg hlt]
      rw [List.pairwise_cons]
      refine ⟨?_, ih hp.2⟩
      intro y hy
      rcases (mem_insertDesc c y ds).mp hy with hyc | hyds
      · rw [hyc]; exact Nat.le_of_not_lt hlt
      · exact hp.1 y hyds

theorem pairwise_sortCommentsDesc (cs : List LinearComment) :
    (sortCommentsDesc cs).Pairwise (fun a b => b.createdAt ≤ a.createdAt) := by
  induction cs with
  | nil => simp [sortCommentsDesc]
  | cons c rest ih =>
    rw [sortCommentsDesc, List.foldr_cons]
    exact pairwise_insertDesc c _ ih

theorem mem_sortCommentsDesc (x : LinearComment) (cs : List LinearComment) :
    x ∈ sortCommentsDesc cs ↔ x ∈ cs := by
  induction cs with
  | nil => simp [sortCommentsDesc]
  | cons c rest ih =>
    rw [sortCommentsDesc, List.foldr_cons]
    rw [mem_insertDesc]
    rw [List.mem_cons]
    rw [sortCommentsDesc] at ih
    rw [ih]

/-- C10: the `recentComments` list returned by the Linear fetch contains at
most 20 entries, is ordered by creation instant descending (newest first)
across all issues, and each entry's body is the original comment body when
it has at most 500 characters, and otherwise its first 500 characters with
an appended ellipsis. -/
theorem linear_recent_comments_spec (issues : List LinearIssue) :
    (recentComments issues).length ≤ 20 ∧
    (recentComments issues).Pairwise (fun a b => b.createdAt ≤ a.createdAt) ∧
    ∀ c ∈ recentComments issues, ∃ i ∈ issues, ∃ rc ∈ i.comments,
      c.issue = i.identifier ∧ c.createdAt = rc.createdAt ∧
      ((rc.body.length ≤ 500 ∧ c.body = rc.body) ∨
        (rc.body.length > 500 ∧ c.body = rc.body.take 500 ++ "...")) := by
  refine ⟨?_, ?_, ?_⟩
  · rw [recentComments]
    rw [List.length_take]
    exact min_le_left _ _
  · rw [recentComments]
    exact (pairwise_sortCommentsDesc _).sublist (List.take_sublist _ _)
  · intro c hc
    have hmem : c ∈ collectLinearComments issues := by
      have h1 : c ∈ sortCommentsDesc (collectLinearComments issues) :=
        List.take_subset _ _ hc
      exact (mem_sortCommentsDesc c _).mp h1
    rw [collectLinearComments, List.mem_flatMap] at hmem
    obtain ⟨i, hi, hci⟩ := hmem
    obtain ⟨rc, hrc, hmk⟩ := List.mem_map.mp hci
    refine ⟨i, hi, rc, hrc, ?_, ?_, ?_⟩
    · rw [hmk.symm]; rfl
    · rw [hmk.symm]; rfl
    · have hbody : c.body = truncBody rc.body := by rw [hmk.symm]; rfl
      by_cases hlen : rc.body.length > 500
      · right
        refine ⟨hlen, ?_⟩
        rw [hbody, truncBody, if_pos hlen]
      · left
        refine ⟨Nat.le_of_not_lt hlen, ?_⟩
        rw [hbody, truncBody, if_neg hlen]

/-- Example Linear issues: one long comment (600 characters) and two short
ones, out of chronological order. -/
def exLinearIssues : List LinearIssue :=
  [⟨"PROJ-1", "Auth flow", 100,
    [⟨String.mk (List.replicate 600 'x'), "Carol", 300⟩, ⟨"short note", "Dana", 500⟩]⟩,
   ⟨"PROJ-2", "Dark mode", 200, [⟨"ship it", "Carol", 400⟩]⟩]

/-- Witness for C10 at a concrete input. -/
theorem linear_recent_comments_spec_witness :
    (recentComments exLinearIssues).length ≤ 20 ∧
    (recentComments exLinearIssues).Pairwise (fun a b => b.createdAt ≤ a.createdAt) ∧
    ∀ c ∈ recentComments exLinearIssues, ∃ i ∈ exLinearIssues, ∃ rc ∈ i.comments,
      c.issue = i.identifier ∧ c.createdAt = rc.createdAt ∧
      ((rc.body.length ≤ 500 ∧ c.body = rc.body) ∨
        (rc.body.length > 500 ∧ c.body = rc.body.take 500 ++ "...")) :=
  linear_recent_comments_spec exLinearIssues
